import Mathlib

/-!
Verification of the sst CLI control plane (cmd/sst/main.go): the command
registry and dispatcher, the stage resolver, the secret-remove handler, the
state-edit lock bracket, positional accessors and process exit codes.

Machinery that is out of scope for the claims (spinners, telemetry, the
provisioning engine, terminal colouring) is not modelled; fallible external
collaborators (backend, editor process, prompt input) are modelled as
explicit outcome parameters.
-/

set_option maxRecDepth 4096

/-- One declared positional argument of a command (struct Argument in main.go);
the description text is irrelevant to dispatch and omitted. -/
structure Argument where
  name : String
  required : Bool
deriving Repr, DecidableEq

/-- A node of the static command tree (struct Command in main.go). Flags,
descriptions and examples play no role in the dispatch claims; the Run
handler is abstracted to the Boolean hasRun, mirroring the nil test
the dispatcher performs on it. -/
inductive Command where
  | mk (name : String) (args : List Argument) (hasRun : Bool) (children : List Command)

/-- Field accessor: the command name. -/
def Command.name : Command → String
  | .mk n _ _ _ => n

/-- Field accessor: the declared positional arguments. -/
def Command.args : Command → List Argument
  | .mk _ a _ _ => a

/-- Field accessor: whether the command has a Run handler (Run != nil). -/
def Command.hasRun : Command → Bool
  | .mk _ _ r _ => r

/-- Field accessor: the child commands. -/
def Command.children : Command → List Command
  | .mk _ _ _ c => c

/-- The static command tree rooted at the sst command (var Root in main.go),
with each node's name, declared arguments, presence of a Run handler, and
children, in source order. -/
def Root : Command :=
  ⟨"sst", [], false,
    [ ⟨"init", [], true, []⟩,
      ⟨"dev", [⟨"command", false⟩], true, []⟩,
      ⟨"deploy", [], true, []⟩,
      ⟨"add", [⟨"provider", true⟩], true, []⟩,
      ⟨"install", [], true, []⟩,
      ⟨"secret", [], false,
        [ ⟨"set", [⟨"name", true⟩, ⟨"value", true⟩], true, []⟩,
          ⟨"remove", [⟨"name", true⟩], true, []⟩,
          ⟨"list", [], true, []⟩ ]⟩,
      ⟨"shell", [⟨"command", false⟩], true, []⟩,
      ⟨"remove", [], true, []⟩,
      ⟨"unlock", [], true, []⟩,
      ⟨"version", [], true, []⟩,
      ⟨"upgrade", [⟨"version", false⟩], true, []⟩,
      ⟨"telemetry", [], false,
        [ ⟨"enable", [], true, []⟩,
          ⟨"disable", [], true, []⟩ ]⟩,
      ⟨"import-unstable",
        [⟨"type", true⟩, ⟨"name", true⟩, ⟨"id", true⟩], true, []⟩,
      ⟨"server", [], true, []⟩,
      ⟨"introspect", [], true, []⟩,
      ⟨"refresh", [], true, []⟩,
      ⟨"state", [], false,
        [ ⟨"edit", [], true, []⟩ ]⟩ ]⟩

/-- The dispatcher's tree walk (the loop over flag.Args() in run(),
main.go lines 91-109). `cmds` is the path matched so far (never empty,
initially the root), `cur` its last element. At each token: if the current
node has no children, the walk stops and the token together with everything
after it becomes the positionals; otherwise the token is looked up among the
children by exact name — on a match the walk descends, on a mismatch it
stops with the positionals left at their initial empty value, exactly as the
Go loop breaks without assigning `positionals`. Returns (positionals, path). -/
def resolveCommands : List String → List Command → Command → List String × List Command
  | [], cmds, _ => ([], cmds)
  | arg :: rest, cmds, cur =>
    if cur.children.isEmpty then (arg :: rest, cmds)
    else
      match cur.children.find? (fun c => c.name == arg) with
      | none => ([], cmds)
      | some c => resolveCommands rest (cmds ++ [c]) c

/-- The values of the four flags the tree registers (registerFlags collects
stage, verbose and help from the root and parent from import-unstable into
one global flag set), plus whether flag parsing failed (cliParseError). -/
structure Flags where
  stage : String
  verbose : Bool
  help : Bool
  parent : String
  parseErr : Bool
deriving Repr, DecidableEq

/-- All flags at their zero values and no parse error, the state before
any token is consumed. -/
def Flags.initial : Flags :=
  ⟨"", false, false, "", false⟩

/-- Split a flag token body at its first '=': the characters of the flag
name, and the characters of the value when one is attached. -/
def splitAtEq : List Char → List Char × Option (List Char)
  | [] => ([], none)
  | c :: rest =>
    if c = '=' then ([], some rest)
    else
      let (n, v) := splitAtEq rest
      (c :: n, v)

/-- Lowercase a string character by character (strings.ToLower as Go
applies it to an ASCII username). -/
def lowerString (s : String) : String :=
  String.mk (s.data.map Char.toLower)

/-- Modelled from the spec: the flag-parsing library (pflag, an external
collaborator not in this repository) consumes any double-dash token
anywhere in argv into the flag map — a string flag takes its attached
=value, a bool flag is set true when bare — and an unknown flag name or a
missing string-flag value is a parse failure; every other token is left, in
order, as a command-line argument. -/
def Flags.consume (f : Flags) (name : String) (value : Option String) : Flags :=
  if name == "stage" then
    match value with
    | some v => { f with stage := v }
    | none => { f with parseErr := true }
  else if name == "parent" then
    match value with
    | some v => { f with parent := v }
    | none => { f with parseErr := true }
  else if name == "verbose" then
    match value with
    | some v => { f with verbose := v == "true" }
    | none => { f with verbose := true }
  else if name == "help" then
    match value with
    | some v => { f with help := v == "true" }
    | none => { f with help := true }
  else
    { f with parseErr := true }

/-- Modelled from the spec: run the flag parser over the whole argument
vector, returning the final flag values and the non-flag tokens in order
(flag.CommandLine.Parse followed by flag.Args() in run()). -/
def parseArgv : List String → Flags → Flags × List String
  | [], f => (f, [])
  | t :: rest, f =>
    match t.data with
    | '-' :: '-' :: body =>
      let (n, v) := splitAtEq body
      parseArgv rest (f.consume (String.mk n) (v.map String.mk))
    | _ =>
      let (f2, ps) := parseArgv rest f
      (f2, t :: ps)

/-- The parsed invocation handed to handlers (struct Cli in main.go):
parsed flags, positional arguments, and the matched command path. -/
structure Cli where
  flags : Flags
  arguments : List String
  path : List Command

/-- Cli.Positional (main.go lines 1206-1211): the positional at the given
index, or the empty string when the index is at or beyond the number of
parsed positionals. -/
def Cli.Positional (c : Cli) (index : Nat) : String :=
  if c.arguments.length ≤ index then ""
  else c.arguments.getD index ""

/-- Resolve an argument vector into a Cli exactly as run() does: parse the
flags out of argv, then walk the command tree over the remaining tokens. -/
def resolveArgv (argv : List String) : Cli :=
  let (f, args) := parseArgv argv Flags.initial
  let (pos, path) := resolveCommands args [Root] Root
  ⟨f, pos, path⟩

/-- The last element of the matched path (active := cmds[len(cmds)-1] in
run()); the path always starts at the root, so the default is never used. -/
def lastCmd (path : List Command) : Command :=
  path.getLastD Root

/-- The count of required declared arguments, computed the way run() does
(main.go lines 143-149): fold over the argument list, skipping the optional
ones. -/
def requiredCount (args : List Argument) : Nat :=
  args.foldl (fun acc a => if a.required then acc + 1 else acc) 0

/-- The outcome of dispatch: render help for a command path, or invoke the
resolved command's handler with the given positionals. -/
inductive Decision where
  | help (path : List Command)
  | exec (path : List Command) (positionals : List String)

/-- The dispatch pipeline of run() (main.go lines 82-155), omitting only
the side effects (logging, toolchain install): resolve argv; on a flag
parse error print help for the matched path; print help when the help flag
is set, the active command has no Run handler, or fewer positionals were
supplied than its required-argument count; otherwise invoke the handler. -/
def runArgv (argv : List String) : Decision :=
  let cli := resolveArgv argv
  if cli.flags.parseErr then
    .help cli.path
  else
    let active := lastCmd cli.path
    if cli.flags.help || !active.hasRun ||
        cli.arguments.length < requiredCount active.args then
      .help cli.path
    else
      .exec cli.path cli.arguments

/-- Whether a candidate stage name is on the denylist checked by guessStage
(main.go line 1487). -/
def denylisted (stage : String) : Bool :=
  stage == "root" || stage == "admin" || stage == "prod" ||
    stage == "dev" || stage == "production"

/-- guessStage (main.go lines 1480-1492): the OS username (none models a
user.Current() failure) is lowercased; the empty string results when the
lookup failed or the lowercased name is denylisted, otherwise the
lowercased name. -/
def guessStage (username : Option String) : String :=
  match username with
  | none => ""
  | some u =>
    let stage := lowerString u
    if denylisted stage then "" else stage

/-- The first non-empty entry of the prompt input stream: the interactive
loop of getStage re-prompts on a read error or an empty entry until a
non-empty stage name is entered (main.go lines 1458-1468). A read error
from Scanln behaves like an empty entry (both continue), so the stream
models each read as the string it produced. -/
def firstNonEmpty : List String → Option String
  | [] => none
  | s :: rest => if s = "" then firstNonEmpty rest else some s

/-- The inputs getStage consults: the explicit stage flag, the persisted
personal-stage marker (empty when absent, project.LoadPersonalStage), the
OS username, the prompt input stream, and whether writing the marker
(project.SetPersonalStage) succeeds. -/
structure StageEnv where
  flagStage : String
  persisted : String
  username : Option String
  promptInputs : List String
  persistOk : Bool

/-- What one getStage call produced: the stage, whether the interactive
prompt ran, whether the username-derived guess supplied the value, and the
value written to the personal-stage marker when one was written. -/
structure StageOutcome where
  stage : String
  prompted : Bool
  guessed : Bool
  persistedValue : Option String
deriving Repr, DecidableEq

/-- How a modelled getStage call can fail: the finite prompt stream held no
non-empty entry (modelling the infinite re-prompt loop), or writing the
personal-stage marker failed (the error return of SetPersonalStage). -/
inductive StageFailure where
  | promptExhausted
  | persistFailed
deriving Repr, DecidableEq

/-- getStage (main.go lines 1451-1478): a non-empty explicit flag wins;
otherwise a non-empty persisted marker; otherwise the username guess, the
interactive prompt when the guess is empty, and the resulting value is
written to the marker before being returned. The .env file load is an
out-of-scope side effect. -/
def getStage (env : StageEnv) : Except StageFailure StageOutcome :=
  if env.flagStage ≠ "" then
    .ok ⟨env.flagStage, false, false, none⟩
  else if env.persisted ≠ "" then
    .ok ⟨env.persisted, false, false, none⟩
  else
    let g := guessStage env.username
    if g = "" then
      match firstNonEmpty env.promptInputs with
      | none => .error .promptExhausted
      | some s =>
        if env.persistOk then .ok ⟨s, true, false, some s⟩
        else .error .persistFailed
    else
      if env.persistOk then .ok ⟨g, false, true, some g⟩
      else .error .persistFailed

/-- The environment after a getStage call: when the call wrote the
personal-stage marker, a later call reads the written value. -/
def StageEnv.afterFirst (env : StageEnv) (o : StageOutcome) : StageEnv :=
  { env with persisted := o.persistedValue.getD env.persisted }

/-- How an error surfaces from a handler (internal/util): a ReadableError
carries a short human message; anything else is rendered generically. -/
inductive CmdError where
  | readable (msg : String)
  | generic (msg : String)
deriving Repr, DecidableEq

/-- The process exit code main() produces from run()'s result (main.go
lines 41-69): 0 when run returned no error, 1 on any error. -/
def exitCode : Option CmdError → Nat
  | none => 0
  | some _ => 1

/-- The outcomes of s.Start for the server command: success, the sentinel
server.ErrServerAlreadyRunning, or any other failure. -/
inductive StartResult where
  | ok
  | alreadyRunning
  | failed (msg : String)
deriving Repr, DecidableEq

/-- The server command's Run handler (main.go lines 1046-1066), after
project initialization succeeded: the already-running sentinel is wrapped
into a ReadableError with the fixed message, any other failure is returned
unwrapped (generic), success returns no error. -/
def serverRun : StartResult → Option CmdError
  | .ok => none
  | .alreadyRunning => some (.readable ("Server already running"))
  | .failed m => some (.generic m)

/-- The stacked calls the state-edit handler makes against the Stack
lifecycle; editor process calls are not Stack calls and are tracked by the
outcome flags instead. -/
inductive StackCall where
  | lock
  | unlock
  | pullState
  | pushState
deriving Repr, DecidableEq

/-- The outcomes of every fallible step of the state edit handler. -/
structure EditEnv where
  initOk : Bool
  lockOk : Bool
  pullOk : Bool
  editorStartOk : Bool
  editorWaitOk : Bool
  pushOk : Bool

/-- The body of the state edit handler between Lock success and return
(main.go lines 1127-1145): pull the state, start the editor, wait for it,
push the state; each failure is wrapped readable except PushState's own
error, which is returned as-is. Returns the error and the Stack calls the
body made. -/
def stateEditBody (env : EditEnv) : Option CmdError × List StackCall :=
  if !env.pullOk then
    (some (.readable ("Could not pull state")), [.pullState])
  else if !env.editorStartOk then
    (some (.readable ("Could not start editor")), [.pullState])
  else if !env.editorWaitOk then
    (some (.readable ("Editor exited with error")), [.pullState])
  else if env.pushOk then
    (none, [.pullState, .pushState])
  else
    (some (.generic ("push failed")), [.pullState, .pushState])

/-- The state edit Run handler (main.go lines 1114-1146). A failed
initProject returns before any Stack call; a failed Lock returns with only
the lock attempt; after Lock succeeds the handler registers
`defer p.Stack.Unlock()`, so — by the defer semantics — Unlock runs after
the body on every one of its exit paths; the embedding renders that defer
as the Unlock appended to whatever trace the body produced. -/
def stateEditRun (env : EditEnv) : Option CmdError × List StackCall :=
  if !env.initOk then
    (some (.generic ("init failed")), [])
  else if !env.lockOk then
    (some (.readable ("Could not lock state")), [.lock])
  else
    let body := stateEditBody env
    (body.1, .lock :: body.2 ++ [.unlock])

/-- One secret-remove outcome: the surfaced error when one occurred,
whether provider.PutSecrets was called, and the secrets map as stored in
the backend afterwards. -/
structure RemoveOutcome where
  result : Option CmdError
  putCalled : Bool
  stored : List (String × String)
deriving Repr, DecidableEq

/-- The secret remove Run handler after GetSecrets succeeded (main.go
lines 646-671): a key absent from the fetched map is a ReadableError
naming the secret and the stage, with no PutSecrets call; otherwise the
key is deleted and the map written back, a write failure surfacing as a
ReadableError and leaving the stored map unchanged. -/
def secretRemoveRun (secrets : List (String × String)) (key stage : String)
    (putOk : Bool) : RemoveOutcome :=
  match secrets.lookup key with
  | none =>
    ⟨some (.readable ("Secret \"" ++ key ++ "\" does not exist for stage \"" ++
        stage ++ "\"")), false, secrets⟩
  | some _ =>
    let updated := secrets.filter (fun p => p.1 != key)
    if putOk then ⟨none, true, updated⟩
    else ⟨some (.readable ("Could not set secret")), true, secrets⟩

/-- Why the dispatcher's tree walk stopped descending: it consumed every
token, it reached a node with no children, or the next token matched no
child of the current node. -/
inductive StopReason where
  | allConsumed
  | leafReached
  | noMatch
deriving Repr, DecidableEq

/-- The spec-side walk: the same descent as resolveCommands but returning
why it stopped and which tokens were left unconsumed, so that the
positionals can be stated per stop reason. -/
def walkClassify : List String → List Command → Command →
    StopReason × List String × List Command
  | [], cmds, _ => (.allConsumed, [], cmds)
  | arg :: rest, cmds, cur =>
    if cur.children.isEmpty then (.leafReached, arg :: rest, cmds)
    else
      match cur.children.find? (fun c => c.name == arg) with
      | none => (.noMatch, arg :: rest, cmds)
      | some c => walkClassify rest (cmds ++ [c]) c

/-- The amended positionals rule: the unconsumed tokens become positionals
only when the walk stopped at a node with no children; a stop on an
unmatched token discards them, and consuming every token leaves none. -/
def positionalsOf : StopReason → List String → List String
  | .leafReached, remaining => remaining
  | .allConsumed, _ => []
  | .noMatch, _ => []

/-- The required-argument fold of run() counts exactly the required
arguments. -/
theorem requiredCount_eq_filter (args : List Argument) :
    requiredCount args = (args.filter (fun a => a.required)).length := by
  have step : ∀ (l : List Argument) (n : Nat),
      l.foldl (fun acc a => if a.required then acc + 1 else acc) n =
        n + (l.filter (fun a => a.required)).length := by
    intro l
    induction l with
    | nil => intro n; simp
    | cons a l ih =>
      intro n
      by_cases h : a.required
      · simp [List.foldl_cons, List.filter_cons, h, ih]
        omega
      · simp [List.foldl_cons, List.filter_cons, h, ih]
  simpa [requiredCount] using step args 0

/-- A non-empty result of the prompt loop model is never the empty
string. -/
theorem firstNonEmpty_ne_empty (l : List String) (s : String)
    (h : firstNonEmpty l = some s) : s ≠ "" := by
  induction l with
  | nil => simp [firstNonEmpty] at h
  | cons a rest ih =>
    by_cases ha : a = ""
    · exact ih (by simpa [firstNonEmpty, ha] using h)
    · have : a = s := by simpa [firstNonEmpty, ha] using h
      exact this ▸ ha

/-- Appending a single element makes it the last. -/
theorem getLast?_append_singleton {α : Type} (l : List α) (a : α) :
    (l ++ [a]).getLast? = some a := by
  induction l with
  | nil => rfl
  | cons x l ih =>
    cases l with
    | nil => rfl
    | cons y l => simpa using ih

/-- C1: in the state edit handler, once Stack.Lock() has returned success,
Stack.Unlock() is invoked on every exit path — whichever of PullState, the
editor start, the editor wait or PushState fails or succeeds, the call
trace contains the unlock and ends with it. -/
theorem c1_state_edit_unlock (env : EditEnv)
    (hinit : env.initOk = true) (hlock : env.lockOk = true) :
    StackCall.unlock ∈ (stateEditRun env).2 ∧
    (stateEditRun env).2.getLast? = some StackCall.unlock := by
  have htrace : (stateEditRun env).2 =
      .lock :: (stateEditBody env).2 ++ [.unlock] := by
    simp [stateEditRun, hinit, hlock]
  constructor
  · rw [htrace]; simp
  · rw [htrace]
    simpa using
      getLast?_append_singleton (StackCall.lock :: (stateEditBody env).2)
        StackCall.unlock

/-- C1 witness: on the path where PullState fails, the trace still
contains the unlock. -/
theorem c1_witness :
    StackCall.unlock ∈ (stateEditRun ⟨true, true, false, true, true, true⟩).2 :=
  (c1_state_edit_unlock ⟨true, true, false, true, true, true⟩ rfl rfl).1

/-- C8: removing a secret whose key is absent from the fetched map yields
a readable error naming the secret and the stage, PutSecrets is not
called, and the stored map is unchanged. -/
theorem c8_secret_remove_absent (secrets : List (String × String))
    (key stage : String) (putOk : Bool)
    (h : secrets.lookup key = none) :
    (secretRemoveRun secrets key stage putOk).result =
      some (CmdError.readable ("Secret \"" ++ key ++
        "\" does not exist for stage \"" ++ stage ++ "\"")) ∧
    (secretRemoveRun secrets key stage putOk).putCalled = false ∧
    (secretRemoveRun secrets key stage putOk).stored = secrets := by
  simp [secretRemoveRun, h]

/-- C8 witness: removing the absent key B from a map holding only A. -/
theorem c8_witness :
    (secretRemoveRun [("A", "1")] "B" "prod" true).result =
      some (CmdError.readable ("Secret \"" ++ "B" ++
        "\" does not exist for stage \"" ++ "prod" ++ "\"")) ∧
    (secretRemoveRun [("A", "1")] "B" "prod" true).putCalled = false ∧
    (secretRemoveRun [("A", "1")] "B" "prod" true).stored = [("A", "1")] :=
  c8_secret_remove_absent [("A", "1")] "B" "prod" true (by decide)

/-- C9: the process exits 0 when the resolved operation returns no error
and 1 on every surfaced error; the server-already-running condition is a
readable error with a fixed message, exits 1 like every other error, and
is distinguished from other errors only by its message, not by a distinct
exit code. -/
theorem c9_exit_codes :
    exitCode none = 0 ∧
    (∀ e : CmdError, exitCode (some e) = 1) ∧
    serverRun StartResult.alreadyRunning =
      some (CmdError.readable ("Server already running")) ∧
    exitCode (serverRun StartResult.alreadyRunning) = 1 ∧
    (∀ m : String,
      CmdError.readable ("Server already running") ≠ CmdError.generic m) :=
  ⟨rfl, fun _ => rfl, rfl, rfl, fun _ h => CmdError.noConfusion h⟩

/-- C10: Cli.Positional is total over indices — at or beyond the number of
parsed positionals it returns the empty string. -/
theorem c10_positional_total (c : Cli) (index : Nat)
    (h : c.arguments.length ≤ index) :
    c.Positional index = "" := by
  simp [Cli.Positional, h]

/-- C10 witness: reading index 5 of a one-positional invocation. -/
theorem c10_witness :
    Cli.Positional ⟨Flags.initial, ["a"], [Root]⟩ 5 = "" :=
  c10_positional_total ⟨Flags.initial, ["a"], [Root]⟩ 5 (by decide)

/-- C2 counterexample: on the vector [bogus, extra] the walk stops at th e
root because the token matches no child — no token is consumed, the path
stays at the root — yet the positionals are empty, not the remaining
unconsumed tokens [bogus, extra] the claim requires. -/
theorem c2_counterexample :
    (resolveCommands ["bogus", "extra"] [Root] Root).2 = [Root] ∧
    (resolveCommands ["bogus", "extra"] [Root] Root).1 = [] ∧
    (resolveCommands ["bogus", "extra"] [Root] Root).1 ≠ ["bogus", "extra"] := by
  refine ⟨rfl, rfl, ?_⟩
  decide

/-- C2 as amended: for every argument vector the walk's positionals are
the remaining unconsumed tokens exactly when it stopped at a node with no
children; a stop on a token matching no child discards the remaining
tokens and leaves the positionals empty, and consuming every token leaves
them empty as well. -/
theorem c2_amended_walk (args : List String) (cmds : List Command)
    (cur : Command) :
    resolveCommands args cmds cur =
      (positionalsOf (walkClassify args cmds cur).1
        (walkClassify args cmds cur).2.1,
       (walkClassify args cmds cur).2.2) := by
  induction args generalizing cmds cur with
  | nil => simp [resolveCommands, walkClassify, positionalsOf]
  | cons arg rest ih =>
    by_cases hleaf : cur.children.isEmpty
    · simp [resolveCommands, walkClassify, positionalsOf, hleaf]
    · cases hfind : cur.children.find? (fun c => c.name == arg) with
      | none =>
        simp [resolveCommands, walkClassify, positionalsOf, hleaf, hfind]
      | some c =>
        simp [resolveCommands, walkClassify, hleaf, hfind, ih]

/-- C3: the vector [secret, set, Foo, bar, --stage=prod] resolves to the
path sst, secret, set with positionals [Foo, bar] and flag stage prod and
invokes the secret set handler; the vector [bogus] resolves to a help
render for the root path without invoking any handler. -/
theorem c3_dispatch_examples :
    (resolveArgv ["secret", "set", "Foo", "bar", "--stage=prod"]).path.map
        Command.name = ["sst", "secret", "set"] ∧
    (resolveArgv ["secret", "set", "Foo", "bar", "--stage=prod"]).arguments
      = ["Foo", "bar"] ∧
    (resolveArgv ["secret", "set", "Foo", "bar", "--stage=prod"]).flags.stage
      = "prod" ∧
    runArgv ["secret", "set", "Foo", "bar", "--stage=prod"]
      = Decision.exec
          (resolveArgv ["secret", "set", "Foo", "bar", "--stage=prod"]).path
          ["Foo", "bar"] ∧
    runArgv ["bogus"] = Decision.help [Root] := by
  refine ⟨?_, ?_, ?_, ?_, ?_⟩ <;> rfl

/-- C4: for every resolved invocation (no flag-parse error), dispatch
renders help for the resolved path instead of invoking the handler exactly
when the help flag is set, the resolved command has no Run handler, or
fewer positionals were received than its count of required arguments. -/
theorem c4_help_condition (argv : List String)
    (hp : (resolveArgv argv).flags.parseErr = false) :
    runArgv argv = Decision.help (resolveArgv argv).path ↔
      ((resolveArgv argv).flags.help = true ∨
       (lastCmd (resolveArgv argv).path).hasRun = false ∨
       (resolveArgv argv).arguments.length <
         ((lastCmd (resolveArgv argv).path).args.filter
           (fun a => a.required)).length) := by
  have hreq : requiredCount (lastCmd (resolveArgv argv).path).args =
      ((lastCmd (resolveArgv argv).path).args.filter
        (fun a => a.required)).length :=
    requiredCount_eq_filter _
  rw [← hreq]
  by_cases h1 : (resolveArgv argv).flags.help = true <;>
    by_cases h2 : (lastCmd (resolveArgv argv).path).hasRun = true <;>
      by_cases h3 : (resolveArgv argv).arguments.length <
          requiredCount (lastCmd (resolveArgv argv).path).args <;>
        simp [runArgv, hp, h1, h2, h3]

/-- C4 witness: the vector [bogus] resolves to the root, which has no Run
handler, so dispatch renders help for the resolved path. -/
theorem c4_witness :
    runArgv ["bogus"] = Decision.help (resolveArgv ["bogus"]).path :=
  (c4_help_condition ["bogus"] rfl).mpr (Or.inr (Or.inl rfl))

/-- C5: getStage follows the precedence exactly — a non-empty explicit
flag is returned as-is with no prompt and no marker write; otherwise a
non-empty persisted value is returned the same way; otherwise the
username guess supplies the value when non-empty, the prompt otherwise,
the prompt skipping empty entries until a non-empty one, and whichever of
the two produced the value is written to the personal-stage marker. -/
theorem c5_stage_precedence (env : StageEnv) :
    (env.flagStage ≠ "" →
      getStage env = .ok ⟨env.flagStage, false, false, none⟩) ∧
    (env.flagStage = "" → env.persisted ≠ "" →
      getStage env = .ok ⟨env.persisted, false, false, none⟩) ∧
    (env.flagStage = "" → env.persisted = "" →
      guessStage env.username ≠ "" → env.persistOk = true →
      getStage env = .ok ⟨guessStage env.username, false, true,
        some (guessStage env.username)⟩) ∧
    (env.flagStage = "" → env.persisted = "" →
      guessStage env.username = "" → env.persistOk = true →
      ∀ s, firstNonEmpty env.promptInputs = some s →
        getStage env = .ok ⟨s, true, false, some s⟩) ∧
    (∀ rest, firstNonEmpty ("" :: rest) = firstNonEmpty rest) ∧
    (∀ s rest, s ≠ "" → firstNonEmpty (s :: rest) = some s) := by
  refine ⟨?_, ?_, ?_, ?_, ?_, ?_⟩
  · intro h; simp [getStage, h]
  · intro h1 h2; simp [getStage, h1, h2]
  · intro h1 h2 h3 h4; simp [getStage, h1, h2, h3, h4]
  · intro h1 h2 h3 h4 s hs; simp [getStage, h1, h2, h3, h4, hs]
  · intro rest; simp [firstNonEmpty]
  · intro s rest h; simp [firstNonEmpty, h]

/-- C5 witness: the explicit flag prod wins over a persisted marker with
no prompt and no marker write. -/
theorem c5_witness :
    getStage ⟨"prod", "personal", some ("alice"), [], true⟩ =
      .ok ⟨"prod", false, false, none⟩ :=
  (c5_stage_precedence ⟨"prod", "personal", some ("alice"), [], true⟩).1
    (by decide)

/-- C6 counterexample: for username Alice the guess returns the lowercased
name alice, not the literal username Alice the claim requires. -/
theorem c6_counterexample :
    guessStage (some ("Alice")) = "alice" ∧
    guessStage (some ("Alice")) ≠ "Alice" := by
  refine ⟨?_, ?_⟩ <;> decide

/-- C6 as amended: the guess lowercases the username first — it returns
empty when the lookup failed or the lowercased username is one of root,
admin, prod, dev, production, and the lowercased username otherwise. -/
theorem c6_amended_guess (u : String) :
    guessStage none = "" ∧
    (lowerString u ∈ ["root", "admin", "prod", "dev", "production"] →
      guessStage (some u) = "") ∧
    (lowerString u ∉ ["root", "admin", "prod", "dev", "production"] →
      guessStage (some u) = lowerString u) := by
  refine ⟨rfl, ?_, ?_⟩
  · intro h
    simp only [List.mem_cons, List.mem_singleton, List.not_mem_nil,
      or_false] at h
    rcases h with h | h | h | h | h <;> simp [guessStage, denylisted, h]
  · intro h
    simp only [List.mem_cons, List.mem_singleton, List.not_mem_nil,
      or_false, not_or] at h
    obtain ⟨h1, h2, h3, h4, h5⟩ := h
    simp [guessStage, denylisted, h1, h2, h3, h4, h5]

/-- C6 witness: username Root lowercases onto the denylist, so the guess
is empty. -/
theorem c6_witness :
    guessStage (some ("Root")) = "" :=
  (c6_amended_guess ("Root")).2.1 (by decide)

/-- C7: stage resolution is idempotent — with no explicit flag, a second
getStage call against the environment left by a successful first call
returns the same stage, does not prompt, does not consult the username
guess, and writes no marker, because it reads the marker the first call
left behind. -/
theorem c7_stage_idempotent (env : StageEnv) (o : StageOutcome)
    (hflag : env.flagStage = "")
    (h : getStage env = .ok o) :
    getStage (env.afterFirst o) = .ok ⟨o.stage, false, false, none⟩ := by
  by_cases hp : env.persisted = ""
  · by_cases hg : guessStage env.username = ""
    · cases hfe : firstNonEmpty env.promptInputs with
      | none => simp [getStage, hflag, hp, hg, hfe] at h
      | some s =>
        cases hok : env.persistOk with
        | false => simp [getStage, hflag, hp, hg, hfe, hok] at h
        | true =>
          have ho : o = ⟨s, true, false, some s⟩ := by
            simp [getStage, hflag, hp, hg, hfe, hok] at h
            exact h.symm
          have hs : s ≠ "" := firstNonEmpty_ne_empty _ _ hfe
          simp [StageEnv.afterFirst, ho, getStage, hflag, hs]
    · cases hok : env.persistOk with
      | false => simp [getStage, hflag, hp, hg, hok] at h
      | true =>
        have ho : o = ⟨guessStage env.username, false, true,
            some (guessStage env.username)⟩ := by
          simp [getStage, hflag, hp, hg, hok] at h
          exact h.symm
        simp [StageEnv.afterFirst, ho, getStage, hflag, hg]
  · have ho : o = ⟨env.persisted, false, false, none⟩ := by
      simp [getStage, hflag, hp] at h
      exact h.symm
    simp [StageEnv.afterFirst, ho, getStage, hflag, hp]

/-- C7 witness: after a first call that derived zoe from the username and
persisted it, the second call returns zoe from the marker with no prompt,
no guess and no write. -/
theorem c7_witness :
    getStage (StageEnv.afterFirst ⟨"", "", some ("zoe"), [], true⟩
      ⟨"zoe", false, true, some ("zoe")⟩) =
      .ok ⟨"zoe", false, false, none⟩ :=
  c7_stage_idempotent ⟨"", "", some ("zoe"), [], true⟩
    ⟨"zoe", false, true, some ("zoe")⟩ rfl (by rfl)
